import Mathlib

/-!
Verification of the DataHaven credential-issuance protocol.

The repository contains two client scripts, `govt.py` (administrator: sets
the authority for a credential type) and `issuer.py` (authority: signs a
domain-bound message and submits `issueCredential`).  The on-chain verifier
contract is not part of the repository source; its behaviour is modelled
from the specification (sections 4.3 and 4.4) where needed.

Bytes are modelled as `List Nat` (each entry a byte value), keccak256 as an
abstract function parameter `kecc : List Nat → List Nat`, and signatures in
the symbolic (idealised) model: a signature records the address of its
producer and the exact prefixed hash that was signed; recovery succeeds and
returns that address exactly when the verified hash matches the signed one.
-/

namespace DataHaven

/-- Big-endian value of a byte string. -/
def fromBE (bs : List Nat) : Nat :=
  bs.foldl (fun acc b => acc * 256 + b) 0

/-- Fixed-width big-endian byte encoding (width `w` bytes) of `n`. -/
def toBEfix : Nat → Nat → List Nat
  | 0, _ => []
  | w + 1, n => toBEfix w (n / 256) ++ [n % 256]

/-- Tightly-packed encoding of an `address` value (20 bytes). -/
def pad20 (a : Nat) : List Nat := toBEfix 20 a

/-- Tightly-packed encoding of a `bytes32` value (32 bytes). -/
def pad32 (x : Nat) : List Nat := toBEfix 32 x

/-- Minimal big-endian byte encoding of a nonnegative integer, as produced
by `Web3.to_bytes` on an `int` (`0` encodes as the single byte `0`). -/
def toMinBE (n : Nat) : List Nat :=
  if h : n < 256 then [n]
  else
    have : n / 256 < n := Nat.div_lt_self (by omega) (by omega)
    toMinBE (n / 256) ++ [n % 256]

/-- Python `bytes.rjust(w, pad)`: left-pad to width `w` (no truncation). -/
def rjust (w : Nat) (pad : Nat) (bs : List Nat) : List Nat :=
  List.replicate (w - bs.length) pad ++ bs

/-- Byte encoding of an ASCII string (for the ASCII strings the scripts use,
this coincides with UTF-8). -/
def asciiBytes (s : String) : List Nat :=
  s.data.map Char.toNat

/-! ### issuer.py message construction

`issuer.py` computes
`Web3.solidity_keccak(["address","bytes32","bytes32","address"],
[user, credential_type_hash, credential_hash, CONTRACT])`
and then wraps the 32-byte result with `encode_defunct` before signing.
-/

/-- A value passed to `Web3.solidity_keccak`, tagged with its solidity type. -/
inductive SolValue where
  | addr (a : Nat)
  | b32 (x : Nat)
deriving DecidableEq

/-- Per-type tight packing used by `Web3.solidity_keccak`: an `address`
packs to 20 bytes, a `bytes32` to 32 bytes. -/
def solEncode : SolValue → List Nat
  | .addr a => pad20 a
  | .b32 x => pad32 x

/-- `Web3.solidity_keccak` input: concatenation of the tightly packed
encodings, in argument order. -/
def solidityPack (vs : List SolValue) : List Nat :=
  vs.foldr (fun v acc => solEncode v ++ acc) []

/-- `Web3.solidity_keccak`: keccak256 of the tightly packed concatenation. -/
def solidityKeccak (kecc : List Nat → List Nat) (vs : List SolValue) : List Nat :=
  kecc (solidityPack vs)

/-- The bytes prepended by `encode_defunct` for a 32-byte message: the byte
`0x19` followed by the ASCII text `Ethereum Signed Message:` a newline and
the decimal length `32`. -/
def personalMark : List Nat :=
  0x19 :: asciiBytes "Ethereum Signed Message:\n32"

/-- Hash actually signed after `encode_defunct`: keccak256 of the personal
mark followed by the 32-byte message hash. -/
def defunctHash (kecc : List Nat → List Nat) (mh : List Nat) : List Nat :=
  kecc (personalMark ++ mh)

/-- The `message_hash` computed at issuer.py lines 185-188. -/
def issuerMessageHash (kecc : List Nat → List Nat)
    (user ctype chash contractAddr : Nat) : List Nat :=
  solidityKeccak kecc [.addr user, .b32 ctype, .b32 chash, .addr contractAddr]

/-- The hash the issuer's key ultimately signs (issuer.py lines 190-191):
`encode_defunct` applied to `message_hash`, then the signing primitive. -/
def issuerSignedHash (kecc : List Nat → List Nat)
    (user ctype chash contractAddr : Nat) : List Nat :=
  defunctHash kecc (issuerMessageHash kecc user ctype chash contractAddr)

/-- Modelled from the spec: the wire format of the Authorization message
(section 6): `keccak256( pad20(subject) || pad32(credentialType) ||
pad32(credentialHash) || pad20(verifierAddress) )`. -/
def specWirePreimage (subject ctype chash verifier : Nat) : List Nat :=
  pad20 subject ++ pad32 ctype ++ pad32 chash ++ pad20 verifier

/-- Modelled from the spec: the domain hash of section 4.1. -/
def domainHash (kecc : List Nat → List Nat)
    (verifier subject ctype chash : Nat) : List Nat :=
  kecc (specWirePreimage subject ctype chash verifier)

/-- Modelled from the spec: the domain hash wrapped with the standard
personal-message prefix, the hash against which the Verifier recovers. -/
def prefixedDomainHash (kecc : List Nat → List Nat)
    (verifier subject ctype chash : Nat) : List Nat :=
  kecc (personalMark ++ domainHash kecc verifier subject ctype chash)

/-! ### issuer.py claim serialization

`issuer.py` line 182: `credential_hash = keccak(json.dumps(data).encode())`
where `data` is a flat string-to-string dict.  `json.dumps` without
`sort_keys` serializes the fields in dict insertion order with default
separators (`", "` and `": "`).
-/

/-- JSON rendering of a string value (the script's fields contain no
characters that JSON escapes). -/
def jsonStr (s : String) : String := "\"" ++ s ++ "\""

/-- One `"key": "value"` member of a JSON object. -/
def jsonMember (kv : String × String) : String :=
  jsonStr kv.1 ++ ": " ++ jsonStr kv.2

/-- `json.dumps` on a flat string-to-string dict, fields in insertion
order, default separators. -/
def jsonDumps (fields : List (String × String)) : String :=
  "\x7b" ++ String.intercalate ", " (fields.map jsonMember) ++ "\x7d"

/-- The credential hash computed at issuer.py line 182 from the claim's
fields in their insertion order. -/
def credentialHashOf (kecc : List Nat → List Nat)
    (fields : List (String × String)) : List Nat :=
  kecc (asciiBytes (jsonDumps fields))

/-- Two insertion orders of the same logical claim, built from fields of
the claim in issuer.py lines 169-180. -/
def claimA : List (String × String) :=
  [("name", "Anmol Sarkar"), ("dob", "2000-01-01")]

/-- The same key-value mapping as `claimA`, fields supplied in the other
order. -/
def claimB : List (String × String) :=
  [("dob", "2000-01-01"), ("name", "Anmol Sarkar")]

/-- Lookup of a key in a key-value list, with default for a missing key:
the key-value mapping a flat dict denotes. -/
def lookupD {K V : Type} [DecidableEq K] (m : List (K × V)) (k : K) (d : V) : V :=
  match m with
  | [] => d
  | (k', v) :: rest => if k' = k then v else lookupD rest k d

/-! ### The verifier contract, modelled from the spec

The contract itself is not in the repository; sections 4.3 and 4.4 of the
specification describe it.  Addresses and bytes32 values are `Nat`s;
the registry and the credential store are association lists with lookup
defaulting to zero (absent entries read as the zero address / zero hash).
-/

/-- Modelled from the spec: a recoverable signature in the symbolic model.
It records its producer's address and the exact hash that was signed;
these are what standard ECDSA recovery extracts. -/
structure Signature where
  signer : Nat
  signedHash : List Nat
deriving DecidableEq

/-- Modelled from the spec: the Signer of section 4.2, producing a
recoverable signature over an (already prefixed) hash with the key of
address `a`. -/
def signBy (a : Nat) (h : List Nat) : Signature := ⟨a, h⟩

/-- Modelled from the spec: standard ECDSA recovery in the symbolic model.
Returns the producer's address exactly when the hash matches the hash that
was signed, and fails otherwise. -/
def ecrecover (h : List Nat) (sig : Signature) : Option Nat :=
  if sig.signedHash = h then some sig.signer else none

/-- Modelled from the spec: the contract state of sections 4.3 and 4.4:
its own deployed address (the VerifierInstanceID), the immutable
administrator, the Authority Registry and the Credential Store. -/
structure ContractState where
  self : Nat
  government : Nat
  authorities : List (Nat × Nat)
  credentials : List ((Nat × Nat) × Nat)
deriving DecidableEq

/-- Modelled from the spec: `getAuthority` / the `authorities` mapping:
zero address when no delegation exists. -/
def getAuthority (st : ContractState) (ctype : Nat) : Nat :=
  lookupD st.authorities ctype 0

/-- Modelled from the spec: `getCredentialHash` / the `credentials`
mapping: zero hash when absent. -/
def getCredentialHash (st : ContractState) (subject ctype : Nat) : Nat :=
  lookupD st.credentials (subject, ctype) 0

/-- Modelled from the spec: the error taxonomy of section 7. -/
inductive TxError where
  | Unauthorized
  | MalformedSignature
  | AdminOnly
deriving DecidableEq

/-- Modelled from the spec: `setAuthority` (section 4.3): callable only by
the administrator; overwrites any existing delegation unconditionally. -/
def setAuthority (st : ContractState) (caller ctype auth : Nat) :
    Except TxError ContractState :=
  if caller = st.government then
    .ok { st with authorities := (ctype, auth) :: st.authorities }
  else
    .error .AdminOnly

/-- Modelled from the spec: `issueCredential` (section 4.4): recompute the
prefixed domain hash from (subject, type, hash, own address), recover the
signer, compare against the registered authority, and commit only if they
match and the authority is nonzero.  Failure rejects the whole transition. -/
def issueCredential (kecc : List Nat → List Nat) (st : ContractState)
    (subject ctype chash : Nat) (sig : Signature) :
    Except TxError ContractState :=
  match ecrecover (prefixedDomainHash kecc st.self subject ctype chash) sig with
  | none => .error .MalformedSignature
  | some signer =>
      let auth := getAuthority st ctype
      if auth = 0 ∨ signer ≠ auth then .error .Unauthorized
      else .ok { st with credentials := ((subject, ctype), chash) :: st.credentials }

/-- An operation submitted to the contract. -/
inductive Op where
  | setAuth (caller ctype auth : Nat)
  | issue (subject ctype chash : Nat) (sig : Signature)
deriving DecidableEq

/-- Modelled from the spec: one ledger transaction.  A rejected transition
leaves the state unchanged (atomic all-or-nothing, section 4.4). -/
def step (kecc : List Nat → List Nat) (st : ContractState) : Op → ContractState
  | .setAuth caller ctype auth =>
      match setAuthority st caller ctype auth with
      | .ok st' => st'
      | .error _ => st
  | .issue subject ctype chash sig =>
      match issueCredential kecc st subject ctype chash sig with
      | .ok st' => st'
      | .error _ => st

/-- Modelled from the spec: a serialized ledger history applied in order
(section 5: the ledger totally orders all transactions). -/
def run (kecc : List Nat → List Nat) (st : ContractState) (ops : List Op) :
    ContractState :=
  ops.foldl (step kecc) st

/-- Provenance of a credential record: some operation in the history is a
successful `issueCredential` commit for (s, t) whose signature was over
the prefixed domain hash for this instance and whose recovered signer
equaled the (nonzero) authority registered for `t` at the moment of the
commit, it wrote the value now stored, and no later operation changed the
record (it is the commit that created or last overwrote it). -/
def Provenance (kecc : List Nat → List Nat) (st0 : ContractState)
    (ops : List Op) (s t : Nat) : Prop :=
  ∃ pre chash sig post,
    ops = pre ++ .issue s t chash sig :: post ∧
    sig.signedHash = prefixedDomainHash kecc (run kecc st0 pre).self s t chash ∧
    getAuthority (run kecc st0 pre) t ≠ 0 ∧
    sig.signer = getAuthority (run kecc st0 pre) t ∧
    getCredentialHash (run kecc st0 ops) s t = chash ∧
    ∀ post1 post2, post = post1 ++ post2 →
      getCredentialHash (run kecc st0 (pre ++ .issue s t chash sig :: post1)) s t
        = chash

/-- The credential type identifier computed by govt.py line 163:
`credential_type = keccak(text="PERSONAL")`. -/
def govtCredentialType (kecc : List Nat → List Nat) : List Nat :=
  kecc (asciiBytes "PERSONAL")

/-- The credential type identifier computed by issuer.py line 167:
`credential_type_hash = keccak(text="PERSONAL")`. -/
def issuerCredentialTypeHash (kecc : List Nat → List Nat) : List Nat :=
  kecc (asciiBytes "PERSONAL")

/-- The order of the secp256k1 group: ECDSA signature scalars `r` and `s`
lie in `[1, secpOrder)`. -/
def secpOrder : Nat :=
  0xFFFFFFFFFFFFFFFFFFFFFFFFFFFFFFFEBAAEDCE6AF48A03BBFD25E8CD0364141

/-- The `r` (or `s`) component as submitted at issuer.py lines 198-199:
`Web3.to_bytes(signed.r).rjust(32, b'\x00')`. -/
def submittedScalar (r : Nat) : List Nat :=
  rjust 32 0 (toMinBE r)

/-! ### Byte-encoding lemmas -/

theorem fromBE_snoc (xs : List Nat) (b : Nat) :
    fromBE (xs ++ [b]) = fromBE xs * 256 + b := by
  simp [fromBE, List.foldl_append]

theorem toBEfix_length (w n : Nat) : (toBEfix w n).length = w := by
  induction w generalizing n with
  | zero => rfl
  | succ w ih => simp [toBEfix, ih]

theorem fromBE_toBEfix (w n : Nat) : fromBE (toBEfix w n) = n % 256 ^ w := by
  induction w generalizing n with
  | zero => simp [toBEfix, fromBE, Nat.mod_one]
  | succ w ih =>
      rw [toBEfix, fromBE_snoc, ih, pow_succ]
      rw [mul_comm (256 ^ w) 256, Nat.mod_mul]
      ring

theorem toBEfix_injOn (w a b : Nat) (ha : a < 256 ^ w) (hb : b < 256 ^ w)
    (h : toBEfix w a = toBEfix w b) : a = b := by
  have := congrArg fromBE h
  rw [fromBE_toBEfix, fromBE_toBEfix, Nat.mod_eq_of_lt ha, Nat.mod_eq_of_lt hb] at this
  exact this

theorem pow_256_20 : (256 : Nat) ^ 20 = 2 ^ 160 := by norm_num

theorem pad20_injOn (a b : Nat) (ha : a < 2 ^ 160) (hb : b < 2 ^ 160)
    (h : pad20 a = pad20 b) : a = b := by
  refine toBEfix_injOn 20 a b ?_ ?_ h <;> rw [pow_256_20] <;> assumption

theorem toMinBE_lt (n : Nat) (h : n < 256) : toMinBE n = [n] := by
  rw [toMinBE]
  simp [h]

theorem toMinBE_ge (n : Nat) (h : ¬ n < 256) :
    toMinBE n = toMinBE (n / 256) ++ [n % 256] := by
  rw [toMinBE]
  simp [h]

theorem fromBE_toMinBE (n : Nat) : fromBE (toMinBE n) = n := by
  induction n using Nat.strong_induction_on with
  | _ n ih =>
      by_cases h : n < 256
      · rw [toMinBE_lt n h]
        simp [fromBE]
      · rw [toMinBE_ge n h, fromBE_snoc,
          ih (n / 256) (Nat.div_lt_self (by omega) (by omega))]
        omega

theorem toMinBE_length_le (k n : Nat) (hk : 1 ≤ k) (h : n < 256 ^ k) :
    (toMinBE n).length ≤ k := by
  induction k generalizing n with
  | zero => omega
  | succ k ih =>
      by_cases hn : n < 256
      · rw [toMinBE_lt n hn]
        simp
      · have hk1 : 1 ≤ k := by
          by_contra hc
          have : k = 0 := by omega
          subst this
          simp at h
          omega
        have hdiv : n / 256 < 256 ^ k := by
          rw [pow_succ] at h
          exact Nat.div_lt_of_lt_mul (by omega)
        rw [toMinBE_ge n hn]
        have := ih (n / 256) hk1 hdiv
        simp only [List.length_append, List.length_cons, List.length_nil]
        omega

theorem fromBE_replicate_zero (k : Nat) (bs : List Nat) :
    fromBE (List.replicate k 0 ++ bs) = fromBE bs := by
  induction k with
  | zero => rfl
  | succ k ih =>
      rw [List.replicate_succ, List.cons_append]
      simpa [fromBE] using ih

theorem rjust_length (w pad : Nat) (bs : List Nat) (h : bs.length ≤ w) :
    (rjust w pad bs).length = w := by
  simp [rjust]
  omega

/-! ### Claims about message construction and serialization -/

/-- C3: the message signed and verified for an Authorization is keccak256
of the fixed-order tightly-packed concatenation of the 20-byte subject
address, the 32-byte credential type, the 32-byte credential hash and the
20-byte verifier instance address, wrapped with the standard
personal-message prefix before signing and recovery; the issuer-side
construction (`solidity_keccak` + `encode_defunct`) and the specified wire
format produce byte-for-byte identical input. -/
theorem C3_wire_format_agreement (kecc : List Nat → List Nat)
    (user ctype chash contractAddr : Nat) :
    (pad20 user).length = 20 ∧ (pad32 ctype).length = 32 ∧
    (pad32 chash).length = 32 ∧ (pad20 contractAddr).length = 20 ∧
    solidityPack [SolValue.addr user, SolValue.b32 ctype, SolValue.b32 chash,
        SolValue.addr contractAddr] = specWirePreimage user ctype chash contractAddr ∧
    issuerMessageHash kecc user ctype chash contractAddr
      = domainHash kecc contractAddr user ctype chash ∧
    issuerSignedHash kecc user ctype chash contractAddr
      = prefixedDomainHash kecc contractAddr user ctype chash := by
  refine ⟨toBEfix_length 20 user, toBEfix_length 32 ctype, toBEfix_length 32 chash,
    toBEfix_length 20 contractAddr, ?_, ?_, ?_⟩ <;>
  simp [solidityPack, solEncode, specWirePreimage, issuerMessageHash, solidityKeccak,
    domainHash, issuerSignedHash, defunctHash, prefixedDomainHash]

/-- C9: govt.py and issuer.py compute the same credential-type identifier,
keccak256 of the string "PERSONAL" (a 32-byte value), so the delegation
set by govt.py governs exactly the type under which issuer.py issues. -/
theorem C9_credential_type_agreement (kecc : List Nat → List Nat)
    (hlen : ∀ bs, (kecc bs).length = 32) :
    govtCredentialType kecc = issuerCredentialTypeHash kecc ∧
    govtCredentialType kecc = kecc (asciiBytes "PERSONAL") ∧
    (govtCredentialType kecc).length = 32 :=
  ⟨rfl, rfl, hlen _⟩

/-- Witness for C9 at a concrete 32-byte-valued hash function. -/
theorem C9_witness :
    govtCredentialType (fun _ => List.replicate 32 0)
        = issuerCredentialTypeHash (fun _ => List.replicate 32 0) ∧
    govtCredentialType (fun _ => List.replicate 32 0)
        = (fun _ : List Nat => List.replicate 32 0) (asciiBytes "PERSONAL") ∧
    (govtCredentialType (fun _ => List.replicate 32 0)).length = 32 :=
  C9_credential_type_agreement (fun _ => List.replicate 32 0) (fun _ => by simp)

/-- C4 fails on the code: `json.dumps` without `sort_keys` serializes a
dict in insertion order, so the same key-value mapping supplied in two
different orders yields different byte sequences.  `claimA` and `claimB`
are permutations of each other denoting the same mapping, yet their
serializations differ. -/
theorem C4_serialization_order_dependent :
    List.Perm claimA claimB ∧
    (fun k => lookupD claimA k "") = (fun k => lookupD claimB k "") ∧
    jsonDumps claimA ≠ jsonDumps claimB ∧
    asciiBytes (jsonDumps claimA) ≠ asciiBytes (jsonDumps claimB) := by
  refine ⟨List.Perm.swap _ _ _, funext fun k => ?_, by decide, by decide⟩
  by_cases h1 : (("name" : String) = k)
  · subst h1
    decide
  · by_cases h2 : (("dob" : String) = k)
    · subst h2
      decide
    · simp [claimA, claimB, lookupD, h1, h2]

/-- C10: ECDSA signature scalars are below the secp256k1 group order, so
their minimal big-endian encoding is at most 32 bytes; left-padding with
zero bytes yields exactly 32 bytes and decodes back to the scalar (no
truncation). -/
theorem C10_scalar_fits_bytes32 (r : Nat) (h : r < secpOrder) :
    (toMinBE r).length ≤ 32 ∧ (submittedScalar r).length = 32 ∧
    fromBE (submittedScalar r) = r := by
  have h256 : r < 256 ^ 32 := lt_of_lt_of_le h (by norm_num [secpOrder])
  have hlen := toMinBE_length_le 32 r (by omega) h256
  refine ⟨hlen, rjust_length 32 0 _ hlen, ?_⟩
  rw [submittedScalar, rjust, fromBE_replicate_zero, fromBE_toMinBE]

/-- Witness for C10 at a concrete scalar. -/
theorem C10_witness :
    5 < secpOrder ∧ ((toMinBE 5).length ≤ 32 ∧ (submittedScalar 5).length = 32 ∧
      fromBE (submittedScalar 5) = 5) :=
  ⟨by norm_num [secpOrder], C10_scalar_fits_bytes32 5 (by norm_num [secpOrder])⟩

/-! ### State-machine lemmas -/

theorem run_append (kecc : List Nat → List Nat) (st : ContractState)
    (l1 l2 : List Op) :
    run kecc st (l1 ++ l2) = run kecc (run kecc st l1) l2 := by
  simp [run, List.foldl_append]

theorem run_snoc (kecc : List Nat → List Nat) (st : ContractState)
    (l : List Op) (op : Op) :
    run kecc st (l ++ [op]) = step kecc (run kecc st l) op := by
  simp [run_append, run]

theorem issueCredential_ok_iff (kecc : List Nat → List Nat)
    (st : ContractState) (subject ctype chash : Nat) (sig : Signature)
    (st' : ContractState) :
    issueCredential kecc st subject ctype chash sig = .ok st' ↔
      sig.signedHash = prefixedDomainHash kecc st.self subject ctype chash ∧
      getAuthority st ctype ≠ 0 ∧ sig.signer = getAuthority st ctype ∧
      st' = { st with credentials := ((subject, ctype), chash) :: st.credentials } := by
  by_cases hh : sig.signedHash = prefixedDomainHash kecc st.self subject ctype chash
  · by_cases h0 : getAuthority st ctype = 0
    · simp [issueCredential, ecrecover, hh, h0]
    · by_cases hs : sig.signer = getAuthority st ctype
      · simp [issueCredential, ecrecover, hh, h0, hs, eq_comm]
      · simp [issueCredential, ecrecover, hh, h0, hs]
  · simp [issueCredential, ecrecover, hh]

theorem step_issue_of_error (kecc : List Nat → List Nat) (st : ContractState)
    (subject ctype chash : Nat) (sig : Signature) (e : TxError)
    (h : issueCredential kecc st subject ctype chash sig = .error e) :
    step kecc st (.issue subject ctype chash sig) = st := by
  simp [step, h]

theorem step_issue_of_ok (kecc : List Nat → List Nat) (st st' : ContractState)
    (subject ctype chash : Nat) (sig : Signature)
    (h : issueCredential kecc st subject ctype chash sig = .ok st') :
    step kecc st (.issue subject ctype chash sig) = st' := by
  simp [step, h]

theorem step_self (kecc : List Nat → List Nat) (st : ContractState) (op : Op) :
    (step kecc st op).self = st.self := by
  cases op with
  | setAuth caller ctype auth =>
      simp only [step, setAuthority]
      split <;> rename_i heq <;> split at heq <;> (try cases heq) <;> rfl
  | issue subject ctype chash sig =>
      simp only [step]
      split <;> rename_i st'' heq
      · rw [issueCredential_ok_iff] at heq
        rw [heq.2.2.2]
      · rfl

theorem step_setAuth_credentials (kecc : List Nat → List Nat)
    (st : ContractState) (caller ctype auth : Nat) :
    (step kecc st (.setAuth caller ctype auth)).credentials = st.credentials := by
  simp only [step, setAuthority]
  split <;> rename_i heq <;> split at heq <;> (try cases heq) <;> rfl

theorem step_issue_authorities (kecc : List Nat → List Nat)
    (st : ContractState) (subject ctype chash : Nat) (sig : Signature) :
    (step kecc st (.issue subject ctype chash sig)).authorities = st.authorities := by
  simp only [step]
  split <;> rename_i heq
  · rw [issueCredential_ok_iff] at heq
    rw [heq.2.2.2]
  · rfl

theorem getCredentialHash_of_credentials_eq (st st' : ContractState)
    (h : st'.credentials = st.credentials) (s t : Nat) :
    getCredentialHash st' s t = getCredentialHash st s t := by
  simp [getCredentialHash, h]

theorem prefixedDomainHash_ne (kecc : List Nat → List Nat)
    (hinj : Function.Injective kecc) (vA vB subject ctype chash : Nat)
    (hA : vA < 2 ^ 160) (hB : vB < 2 ^ 160) (hne : vA ≠ vB) :
    prefixedDomainHash kecc vA subject ctype chash ≠
      prefixedDomainHash kecc vB subject ctype chash := by
  intro h
  apply hne
  unfold prefixedDomainHash domainHash specWirePreimage at h
  have h1 := List.append_cancel_left (hinj h)
  have h2 := hinj h1
  have h3 := List.append_cancel_left h2
  exact pad20_injOn vA vB hA hB h3

/-! ### Claims about the verifier state machine (modelled from the spec) -/

/-- C1: if the signature presented to `issueCredential` was produced over
the domain-bound, personal-message-prefixed hash by the key of the
authority currently registered for the credential type (registered means a
nonzero address: no key recovers to the zero address), then
`issueCredential` succeeds and a subsequent `getCredentialHash` returns
the claim's hash. -/
theorem C1_issue_success (kecc : List Nat → List Nat) (st : ContractState)
    (subject ctype chash auth : Nat) (sig : Signature)
    (hauth : getAuthority st ctype = auth) (hnz : auth ≠ 0)
    (hsig : sig = signBy auth (prefixedDomainHash kecc st.self subject ctype chash)) :
    ∃ st', issueCredential kecc st subject ctype chash sig = .ok st' ∧
      getCredentialHash st' subject ctype = chash := by
  subst hsig
  refine ⟨_, (issueCredential_ok_iff kecc st subject ctype chash _ _).2
    ⟨rfl, ?_, ?_, rfl⟩, ?_⟩
  · rw [hauth]; exact hnz
  · rw [hauth]; rfl
  · simp [getCredentialHash, lookupD]

/-- Witness for C1: a concrete registered authority signs, issuance
succeeds and the stored hash is readable. -/
theorem C1_witness :
    ∃ st', issueCredential (fun bs => bs) ⟨7, 1, [(10, 5)], []⟩ 2 10 99
        (signBy 5 (prefixedDomainHash (fun bs => bs) 7 2 10 99)) = .ok st' ∧
      getCredentialHash st' 2 10 = 99 :=
  C1_issue_success (fun bs => bs) ⟨7, 1, [(10, 5)], []⟩ 2 10 99 5 _
    rfl (by decide) rfl

/-- C2: whenever the address recovered from the signature differs from the
currently registered authority for the type, or that authority is the zero
address, `issueCredential` rejects with `Unauthorized` and the whole
transition is a no-op (atomic: the state, including the credential store,
is unchanged). -/
theorem C2_unauthorized_rejected (kecc : List Nat → List Nat)
    (st : ContractState) (subject ctype chash : Nat) (sig : Signature)
    (signer : Nat)
    (hrec : ecrecover (prefixedDomainHash kecc st.self subject ctype chash) sig
      = some signer)
    (hbad : signer ≠ getAuthority st ctype ∨ getAuthority st ctype = 0) :
    issueCredential kecc st subject ctype chash sig = .error .Unauthorized ∧
    step kecc st (.issue subject ctype chash sig) = st := by
  have h1 : issueCredential kecc st subject ctype chash sig = .error .Unauthorized := by
    unfold issueCredential
    rw [hrec]
    rcases hbad with h | h
    · simp [h]
    · simp [h]
  exact ⟨h1, step_issue_of_error kecc st subject ctype chash sig _ h1⟩

/-- Witness for C2: a signature by a non-authority key is rejected and the
state is unchanged. -/
theorem C2_witness :
    issueCredential (fun bs => bs) ⟨7, 1, [(10, 5)], []⟩ 2 10 99
        (signBy 4 (prefixedDomainHash (fun bs => bs) 7 2 10 99))
      = .error .Unauthorized ∧
    step (fun bs => bs) ⟨7, 1, [(10, 5)], []⟩
        (.issue 2 10 99 (signBy 4 (prefixedDomainHash (fun bs => bs) 7 2 10 99)))
      = ⟨7, 1, [(10, 5)], []⟩ :=
  C2_unauthorized_rejected (fun bs => bs) ⟨7, 1, [(10, 5)], []⟩ 2 10 99
    (signBy 4 (prefixedDomainHash (fun bs => bs) 7 2 10 99)) 4 rfl
    (Or.inl (by decide))

/-- C6: an Authorization whose domain hash was computed with verifier
instance A's address never passes verification at an instance with a
different address (addresses are 160-bit; keccak is collision-free in the
model): cross-instance replay always fails and changes nothing. -/
theorem C6_cross_instance_replay_fails (kecc : List Nat → List Nat)
    (hinj : Function.Injective kecc) (stB : ContractState)
    (vA subject ctype chash : Nat) (sig : Signature)
    (hA : vA < 2 ^ 160) (hB : stB.self < 2 ^ 160) (hne : vA ≠ stB.self)
    (hsig : sig.signedHash = prefixedDomainHash kecc vA subject ctype chash) :
    issueCredential kecc stB subject ctype chash sig = .error .MalformedSignature ∧
    step kecc stB (.issue subject ctype chash sig) = stB := by
  have hd := prefixedDomainHash_ne kecc hinj vA stB.self subject ctype chash hA hB hne
  have hrec : ecrecover (prefixedDomainHash kecc stB.self subject ctype chash) sig
      = none := by
    unfold ecrecover
    rw [if_neg (by rw [hsig]; exact hd)]
  have h1 : issueCredential kecc stB subject ctype chash sig
      = .error .MalformedSignature := by
    unfold issueCredential
    rw [hrec]
  exact ⟨h1, step_issue_of_error kecc stB subject ctype chash sig _ h1⟩

/-- Witness for C6: a signature domain-bound to instance 7 is rejected by
the instance at address 8. -/
theorem C6_witness :
    issueCredential (fun bs => bs) ⟨8, 1, [(10, 5)], []⟩ 2 10 99
        (signBy 5 (prefixedDomainHash (fun bs => bs) 7 2 10 99))
      = .error .MalformedSignature ∧
    step (fun bs => bs) ⟨8, 1, [(10, 5)], []⟩
        (.issue 2 10 99 (signBy 5 (prefixedDomainHash (fun bs => bs) 7 2 10 99)))
      = ⟨8, 1, [(10, 5)], []⟩ :=
  C6_cross_instance_replay_fails (fun bs => bs) (fun _ _ h => h)
    ⟨8, 1, [(10, 5)], []⟩ 7 2 10 99
    (signBy 5 (prefixedDomainHash (fun bs => bs) 7 2 10 99))
    (by norm_num) (by norm_num) (by decide) rfl

/-- C7: re-submitting an identical, already-committed Authorization a
second time succeeds, the stored hash for (subject, type) is the submitted
hash both before and after, and every entry of the store reads the same
after the second submission. -/
theorem C7_reissue_idempotent (kecc : List Nat → List Nat)
    (st st' : ContractState) (subject ctype chash : Nat) (sig : Signature)
    (hok : issueCredential kecc st subject ctype chash sig = .ok st') :
    ∃ st'', issueCredential kecc st' subject ctype chash sig = .ok st'' ∧
      getCredentialHash st' subject ctype = chash ∧
      ∀ s t, getCredentialHash st'' s t = getCredentialHash st' s t := by
  rw [issueCredential_ok_iff] at hok
  obtain ⟨hh, h0, hs, hst⟩ := hok
  subst hst
  refine ⟨_, (issueCredential_ok_iff kecc _ subject ctype chash sig _).2
    ⟨hh, h0, hs, rfl⟩, by simp [getCredentialHash, lookupD], ?_⟩
  intro s t
  by_cases hk : ((subject, ctype) = (s, t)) <;>
    simp [getCredentialHash, lookupD, hk]

/-- Witness for C7: issuing the same concrete Authorization twice succeeds
and leaves the store reading identically. -/
theorem C7_witness :
    ∃ st'', issueCredential (fun bs => bs)
        ⟨7, 1, [(10, 5)], [((2, 10), 99)]⟩ 2 10 99
        (signBy 5 (prefixedDomainHash (fun bs => bs) 7 2 10 99)) = .ok st'' ∧
      getCredentialHash ⟨7, 1, [(10, 5)], [((2, 10), 99)]⟩ 2 10 = 99 ∧
      ∀ s t, getCredentialHash st'' s t
        = getCredentialHash ⟨7, 1, [(10, 5)], [((2, 10), 99)]⟩ s t :=
  C7_reissue_idempotent (fun bs => bs) ⟨7, 1, [(10, 5)], []⟩
    ⟨7, 1, [(10, 5)], [((2, 10), 99)]⟩ 2 10 99
    (signBy 5 (prefixedDomainHash (fun bs => bs) 7 2 10 99)) rfl

/-- C8: `setAuthority` leaves every credential record unchanged (the
Issued state has no dependency on current Registry contents), and changes
the registry only at the targeted credential type, and only when called by
the administrator. -/
theorem C8_setAuthority_frame (kecc : List Nat → List Nat)
    (st : ContractState) (caller ctype auth : Nat) :
    (∀ s t, getCredentialHash (step kecc st (.setAuth caller ctype auth)) s t
        = getCredentialHash st s t) ∧
    (∀ t, getAuthority (step kecc st (.setAuth caller ctype auth)) t
        = if caller = st.government ∧ t = ctype then auth
          else getAuthority st t) := by
  constructor
  · intro s t
    exact getCredentialHash_of_credentials_eq st _
      (step_setAuth_credentials kecc st caller ctype auth) s t
  · intro t
    by_cases hc : caller = st.government
    · by_cases ht : ctype = t
      · simp [step, setAuthority, hc, getAuthority, lookupD, ht]
      · have ht' : ¬ (t = ctype) := fun h => ht h.symm
        simp [step, setAuthority, hc, getAuthority, lookupD, ht, ht']
    · simp [step, setAuthority, hc]

theorem provenance_extend (kecc : List Nat → List Nat) (st0 : ContractState)
    (l : List Op) (op : Op) (s t : Nat)
    (hkeep : getCredentialHash (step kecc (run kecc st0 l) op) s t
      = getCredentialHash (run kecc st0 l) s t)
    (h : Provenance kecc st0 l s t) : Provenance kecc st0 (l ++ [op]) s t := by
  obtain ⟨pre, chash, sig, post, heq, hsig, hnz, hsgn, hval, hstab⟩ := h
  have hlist : pre ++ Op.issue s t chash sig :: (post ++ [op]) = l ++ [op] := by
    rw [heq]
    simp
  refine ⟨pre, chash, sig, post ++ [op], hlist.symm, hsig, hnz, hsgn, ?_, ?_⟩
  · rw [run_snoc, hkeep]
    exact hval
  · intro p1 p2 hsplit
    rcases List.append_eq_append_iff.1 hsplit with ⟨a', hp1, hb⟩ | ⟨c', hpost, _⟩
    · cases a' with
      | nil =>
          rw [List.append_nil] at hp1
          subst hp1
          rw [← heq]
          exact hval
      | cons x xs =>
          rw [List.cons_append] at hb
          injection hb with hb1 hb2
          obtain ⟨hxs, hp2⟩ := List.append_eq_nil.1 hb2.symm
          subst hb1
          subst hxs
          subst hp1
          rw [hlist, run_snoc, hkeep]
          exact hval
    · exact hstab p1 c' hpost

/-- C5: in every state reachable from an empty credential store by any
sequence of operations, a nonzero credential record for (subject, type)
exists only with a provenance: the commit that created or last overwrote
it was a successful `issueCredential` whose recovered signer equaled the
nonzero authority registered for that type at that moment. -/
theorem C5_record_provenance (kecc : List Nat → List Nat)
    (st0 : ContractState) (h0 : st0.credentials = [])
    (ops : List Op) (s t : Nat)
    (hne : getCredentialHash (run kecc st0 ops) s t ≠ 0) :
    Provenance kecc st0 ops s t := by
  induction ops using List.reverseRecOn with
  | nil =>
      exfalso
      apply hne
      simp [run, getCredentialHash, h0, lookupD]
  | append_singleton l op ih =>
      rw [run_snoc] at hne
      cases op with
      | setAuth caller ctype auth =>
          have hkeep := getCredentialHash_of_credentials_eq (run kecc st0 l) _
            (step_setAuth_credentials kecc (run kecc st0 l) caller ctype auth) s t
          rw [hkeep] at hne
          exact provenance_extend kecc st0 l _ s t hkeep (ih hne)
      | issue s' t' ch' sig' =>
          cases hok : issueCredential kecc (run kecc st0 l) s' t' ch' sig' with
          | error e =>
              have hstep := step_issue_of_error kecc (run kecc st0 l) s' t' ch' sig' e hok
              have hkeep : getCredentialHash
                  (step kecc (run kecc st0 l) (.issue s' t' ch' sig')) s t
                  = getCredentialHash (run kecc st0 l) s t := by
                rw [hstep]
              rw [hkeep] at hne
              exact provenance_extend kecc st0 l _ s t hkeep (ih hne)
          | ok st' =>
              have hstep := step_issue_of_ok kecc (run kecc st0 l) st' s' t' ch' sig' hok
              rw [issueCredential_ok_iff] at hok
              obtain ⟨hh, hz, hsg, hst⟩ := hok
              by_cases hk : ((s', t') = (s, t))
              · rw [Prod.mk.injEq] at hk
                obtain ⟨hs', ht'⟩ := hk
                subst hs'
                subst ht'
                have hval : getCredentialHash (run kecc st0 (l ++ [Op.issue s' t' ch' sig'])) s' t'
                    = ch' := by
                  rw [run_snoc, hstep, hst]
                  simp [getCredentialHash, lookupD]
                refine ⟨l, ch', sig', [], rfl, hh, hz, hsg, hval, ?_⟩
                intro p1 p2 hsplit
                obtain ⟨hp1, hp2⟩ := List.append_eq_nil.1 hsplit.symm
                subst hp1
                exact hval
              · have hkeep : getCredentialHash
                    (step kecc (run kecc st0 l) (.issue s' t' ch' sig')) s t
                    = getCredentialHash (run kecc st0 l) s t := by
                  rw [hstep, hst]
                  simp [getCredentialHash, lookupD, hk]
                rw [hkeep] at hne
                exact provenance_extend kecc st0 l _ s t hkeep (ih hne)

/-- Witness for C5: after a concrete delegation and a concrete authorized
issuance, the stored record has the required provenance. -/
theorem C5_witness :
    Provenance (fun bs => bs) ⟨7, 1, [], []⟩
      [Op.setAuth 1 10 5,
        Op.issue 2 10 99 (signBy 5 (prefixedDomainHash (fun bs => bs) 7 2 10 99))]
      2 10 :=
  C5_record_provenance (fun bs => bs) ⟨7, 1, [], []⟩ rfl
    [Op.setAuth 1 10 5,
      Op.issue 2 10 99 (signBy 5 (prefixedDomainHash (fun bs => bs) 7 2 10 99))]
    2 10 (by decide)

end DataHaven
